import Mathlib

/-!
Shallow embedding of `src/extraction-v2.py` (N-CSR table extractor):
the Financial Validator (`validate_financial_logic`), the agentic retry
loop (`process_table_agentic_loop`) and the batch driver loop (`main`).

Modelling conventions:
* JSON values (what `json.loads` yields) are the inductive `JsonVal`;
  a decoded JSON object is an association list `JsonObj` (Python dicts
  keep insertion order and have unique keys).
* Python floats are modelled as rationals `ℚ`; the builtin `float(...)`
  string conversion is `pyFloatOfString` (decimal literals with optional
  sign and fraction part; exponent and inf/nan forms are not needed by
  any claim and are treated as parse failures).
* A Python function that may raise is modelled as returning
  `Except PyErr _`.  `validate_financial_logic` returns
  `.ok none` for Valid, `.ok (some reason)` for Invalid(reason) and
  `.error .attributeError` when the Python code would raise
  (`.lower()` on a non-string `table_type`, line 28, which sits outside
  the `try` block).
* The Model Gateway (OpenAI call + `json.loads`) is an environment
  `resp : Nat → GatewayResp` giving, per attempt index, either a parsed
  payload or a failure (transport error or unparseable content).
-/

inductive JsonVal where
  | null : JsonVal
  | bool (b : Bool) : JsonVal
  | num (q : ℚ) : JsonVal
  | str (s : String) : JsonVal
  | arr (elems : List JsonVal) : JsonVal
  | obj (fields : List (String × JsonVal)) : JsonVal

/-- A decoded JSON object: association list with unique keys, in insertion
order, as a Python dict. -/
abbrev JsonObj := List (String × JsonVal)

/-- `d.get(key)` without default: first binding of `key`, if any. -/
def getField : JsonObj → String → Option JsonVal
  | [], _ => none
  | (k, v) :: rest, key => if k = key then some v else getField rest key

/-- Python `d[key] = v`: replace the value in place if the key exists
(dict keys keep their position), otherwise append a new binding. -/
def setKey : JsonObj → String → JsonVal → JsonObj
  | [], key, v => [(key, v)]
  | (k, w) :: rest, key, v =>
      if k = key then (key, v) :: rest else (k, w) :: setKey rest key v

/-- Boolean prefix test on character lists (for the substring search that
models Python's `in` operator). -/
def leadsWith : List Char → List Char → Bool
  | [], _ => true
  | _ :: _, [] => false
  | a :: as, b :: bs => a = b && leadsWith as bs

/-- `containsSeq needle hay`: does `needle` occur contiguously in `hay`? -/
def containsSeq (needle : List Char) : List Char → Bool
  | [] => leadsWith needle []
  | c :: rest => leadsWith needle (c :: rest) || containsSeq needle rest

/-- Python `needle in hay` on strings (substring containment). -/
def strContainsSub (hay needle : String) : Bool :=
  containsSeq needle.data hay.data

/-- Python `s.replace(',', '')`: drop every comma. -/
def stripCommas (s : String) : String :=
  ⟨s.data.filter (fun c => c ≠ ',')⟩

/-- Value of a digit character. -/
def digitVal (c : Char) : Nat := c.toNat - 48

/-- Is an ASCII digit. -/
def isDigitChar (c : Char) : Bool := 48 ≤ c.toNat && c.toNat ≤ 57

/-- Natural number denoted by a digit list (most significant first). -/
def digitsVal (ds : List Char) : Nat :=
  ds.foldl (fun acc c => 10 * acc + digitVal c) 0

/-- Split the longest leading run of ASCII digits off a character list. -/
def takeDigits : List Char → (List Char × List Char)
  | [] => ([], [])
  | c :: rest =>
      if isDigitChar c then
        let (ds, tl) := takeDigits rest
        (c :: ds, tl)
      else ([], c :: rest)

/-- Unsigned decimal literal: `digits`, `digits.digits`, `.digits` or
`digits.` with at least one digit overall; anything else fails. -/
def parseUnsignedDec (cs : List Char) : Option ℚ :=
  let (ip, rest) := takeDigits cs
  match rest with
  | [] => if ip.isEmpty then none else some (digitsVal ip : ℚ)
  | '.' :: rest2 =>
      let (fp, rest3) := takeDigits rest2
      if rest3.isEmpty then
        if ip.isEmpty && fp.isEmpty then none
        else some ((digitsVal ip : ℚ) + (digitsVal fp : ℚ) / (10 : ℚ) ^ fp.length)
      else none
  | _ => none

/-- Python `float(s)` on decimal literals: optional sign then an unsigned
decimal literal (exponent, `inf`/`nan` and surrounding whitespace forms
are modelled as failures; no claim exercises them). -/
def pyFloatOfString (s : String) : Option ℚ :=
  match s.data with
  | '-' :: rest => (parseUnsignedDec rest).map (fun q => -q)
  | '+' :: rest => parseUnsignedDec rest
  | cs => parseUnsignedDec cs

/-- `float(str(v).replace(',', ''))` on a JSON value: numbers round-trip
through `str`/`float` unchanged; strings are parsed after comma
stripping; `str()` of `None`, booleans, lists and dicts never parses as
a float (`ValueError`). -/
def coerceFloat : JsonVal → Option ℚ
  | .num q => some q
  | .str s => pyFloatOfString (stripCommas s)
  | _ => none

inductive PyErr where
  | attributeError : PyErr
  | nameError : PyErr
deriving DecidableEq

/-- ASCII lowercase of one character (Python `str.lower` restricted to
ASCII, which covers every table-type pattern the validator matches). -/
def charLower (c : Char) : Char :=
  if 65 ≤ c.toNat && c.toNat ≤ 90 then Char.ofNat (c.toNat + 32) else c

/-- Python `s.lower()`. -/
def strLower (s : String) : String := ⟨s.data.map charLower⟩

/-- Line 28, `data.get("table_type", "").lower()`: absent key defaults to
`""`; a string is lowercased; any non-string raises `AttributeError`
(this line is outside the function's `try` block). -/
def tableTypeLower (d : JsonObj) : Except PyErr String :=
  match getField d "table_type" with
  | none => .ok ""
  | some (.str s) => .ok (strLower s)
  | some _ => .error .attributeError

/-- Lines 33–35: `float(str(data.get(key, 0)).replace(',', ''))`. -/
def getFin (d : JsonObj) (key : String) : Option ℚ :=
  coerceFloat ((getField d key).getD (.num 0))

/-- The `except ValueError` message of line 46. -/
def coercionErrorMsg : String :=
  "Validation Error: Could not convert financial fields to numbers."

/-- The math-mismatch f-string of line 43, with the three coerced
operands and the computed difference interpolated. -/
def mathErrorMsg (assets liabilities netAssets difference : ℚ) : String :=
  "Math Error: Total Assets (" ++ toString assets ++
    ") does not equal Liabilities (" ++ toString liabilities ++
    ") + Net Assets (" ++ toString netAssets ++ "). Difference is " ++
    toString difference ++ "."

/-- `validate_financial_logic` (lines 22–52).  `.ok none` models the
Python `return None` (Valid); `.ok (some reason)` models returning an
error string (Invalid); `.error _` models an uncaught exception. -/
def validate_financial_logic (d : JsonObj) : Except PyErr (Option String) :=
  match tableTypeLower d with
  | .error e => .error e
  | .ok tt =>
      if strContainsSub tt "balance sheet" ||
          strContainsSub tt "assets and liabilities" then
        match getFin d "total_assets", getFin d "total_liabilities",
            getFin d "net_assets" with
        | some assets, some liabilities, some netAssets =>
            let difference := |assets - (liabilities + netAssets)|
            if difference > 1 then
              .ok (some (mathErrorMsg assets liabilities netAssets difference))
            else .ok none
        | _, _, _ => .ok (some coercionErrorMsg)
      else .ok none

/-! ## The agentic retry loop (`process_table_agentic_loop`, lines 54–117) -/

def MAX_RETRIES : Nat := 3

def systemPrompt : String :=
  "You are a specialized financial auditor. You extract data precisely."

/-- Python slice `s[:n]` (character count). -/
def pyTake (s : String) (n : Nat) : String := ⟨s.data.take n⟩

/-- The `base_prompt` f-string (lines 60–72), with the filename and the
table markup truncated to 15000 characters interpolated. -/
def basePrompt (tableHtml filename : String) : String :=
  "\n    Analyze this HTML table from file: " ++ filename ++
  ".\n    \n    Goal: Extract into JSON.\n    \n    CRITICAL SCHEMA RULES:\n    1. Identify \x27table_type\x27.\n    2. If it is a Balance Sheet, you MUST extract keys: \"total_assets\", \"total_liabilities\", \"net_assets\".\n    3. Remove commas from numbers.\n    \n    HTML:\n    " ++
  pyTake tableHtml 15000 ++ "\n    "

/-- One conversation turn. -/
structure Message where
  role : String
  content : String
deriving DecidableEq

mutual
/-- `json.dumps` on a JSON value (string escaping omitted: no claim
inspects serialized content). -/
def dumpVal : JsonVal → String
  | .null => "null"
  | .bool true => "true"
  | .bool false => "false"
  | .num q => toString q
  | .str s => "\"" ++ s ++ "\""
  | .arr elems => "[" ++ dumpElems elems ++ "]"
  | .obj fields => "\x7b" ++ dumpMembers fields ++ "\x7d"
def dumpElems : List JsonVal → String
  | [] => ""
  | [v] => dumpVal v
  | v :: vs => dumpVal v ++ ", " ++ dumpElems vs
def dumpMembers : List (String × JsonVal) → String
  | [] => ""
  | [(k, v)] => "\"" ++ k ++ "\": " ++ dumpVal v
  | (k, v) :: rest => "\"" ++ k ++ "\": " ++ dumpVal v ++ ", " ++ dumpMembers rest
end

def jsonDumps (d : JsonObj) : String := dumpVal (.obj d)

/-- One gateway round-trip outcome for one attempt: a parsed JSON
payload, or a failure (transport error or unparseable content — both
reach the same `except` in the source). -/
inductive GatewayResp where
  | fail : GatewayResp
  | ok (data : JsonObj) : GatewayResp

/-- The audit-failure user turn of lines 106–109. -/
def feedbackMsg (errorMessage : String) : String :=
  "AUDIT FAILURE: " ++ errorMessage ++
  ". Please re-examine the table image and fix your JSON output to satisfy the math check."

/-- The seeded history of lines 74–77: one system turn, one user turn. -/
def initMessages (tableHtml filename : String) : List Message :=
  [⟨"system", systemPrompt⟩, ⟨"user", basePrompt tableHtml filename⟩]

/-- The failure record of line 117. -/
def failureRecord (lastAttempt : JsonObj) : JsonObj :=
  [("error", .str "Validation failed after max retries"),
   ("last_attempt", .obj lastAttempt)]

/-- Falling through to line 117: if `extracted_data` was never bound
(the very first gateway call failed), referencing it raises `NameError`;
otherwise the failure record is returned. -/
def exhaustedReturn : Option JsonObj → Except PyErr JsonObj
  | none => .error .nameError
  | some d => .ok (failureRecord d)

/-- Lines 96–97: stamp `validation_status` then `attempts_needed`
(`attempt` is 0-based in the source loop). -/
def acceptedRecord (d : JsonObj) (attempt : Nat) : JsonObj :=
  setKey (setKey d "validation_status" (.str "passed"))
    "attempts_needed" (.num ((attempt : ℚ) + 1))

/-- The `for attempt in range(MAX_RETRIES)` loop (lines 79–117), with
`fuel` the number of remaining iterations, `attempt` the current 0-based
attempt index, `lastData` the current binding of `extracted_data` (none
if never bound) and `trace` accumulating, per gateway call, the history
passed to that call. -/
def loopGo (resp : Nat → GatewayResp) :
    Nat → Nat → List Message → Option JsonObj → List (List Message) →
    Except PyErr JsonObj × List (List Message)
  | 0, _, _, lastData, trace => (exhaustedReturn lastData, trace)
  | fuel + 1, attempt, messages, lastData, trace =>
      let trace2 := trace ++ [messages]
      match resp attempt with
      | .fail => (exhaustedReturn lastData, trace2)
      | .ok extractedData =>
          match validate_financial_logic extractedData with
          | .error _ => (exhaustedReturn (some extractedData), trace2)
          | .ok none => (.ok (acceptedRecord extractedData attempt), trace2)
          | .ok (some errorMessage) =>
              loopGo resp fuel (attempt + 1)
                (messages ++ [⟨"assistant", jsonDumps extractedData⟩,
                              ⟨"user", feedbackMsg errorMessage⟩])
                (some extractedData) trace2

/-- `process_table_agentic_loop` together with the trace of histories
passed to the gateway. -/
def processTableFull (tableHtml filename : String) (resp : Nat → GatewayResp) :
    Except PyErr JsonObj × List (List Message) :=
  loopGo resp MAX_RETRIES 0 (initMessages tableHtml filename) none []

/-- `process_table_agentic_loop` (lines 54–117): the returned record, or
the exception it raises. -/
def process_table_agentic_loop (tableHtml filename : String)
    (resp : Nat → GatewayResp) : Except PyErr JsonObj :=
  (processTableFull tableHtml filename resp).1

/-- The ConversationHistory snapshots passed to the gateway, one per
attempt actually performed. -/
def gatewayHistories (tableHtml filename : String)
    (resp : Nat → GatewayResp) : List (List Message) :=
  (processTableFull tableHtml filename resp).2

/-! ## The batch driver (`main`, lines 119–168).  File reading and HTML
table discovery are external (filesystem, BeautifulSoup); a file input
is modelled by its observable outcome: a read failure, or the list of
located table fragments each paired with its gateway environment. -/

inductive ReadResult where
  | fail : ReadResult
  | ok (tables : List (String × (Nat → GatewayResp))) : ReadResult

structure FileInput where
  name : String
  read : ReadResult

/-- The inner `for i, table in enumerate(tables)` loop (lines 151–157):
each table record is appended in order; an exception escaping
`process_table_agentic_loop` aborts the whole file. -/
def processTables (filename : String) :
    List (String × (Nat → GatewayResp)) → Except PyErr (List JsonObj)
  | [] => .ok []
  | (html, resp) :: rest =>
      match process_table_agentic_loop html filename resp with
      | .error e => .error e
      | .ok r =>
          match processTables filename rest with
          | .error e => .error e
          | .ok rs => .ok (r :: rs)

/-- The `file_record` dict of line 149, completed. -/
def fileRecord (name : String) (tables : List JsonObj) : JsonObj :=
  [("filename", .str name), ("extracted_tables", .arr (tables.map .obj))]

/-- One iteration of the `for file_path in files` loop (lines 140–162):
`none` when the per-file `try` block raises (read failure, or an
exception out of a table session) — the file is skipped. -/
def processFile (f : FileInput) : Option JsonObj :=
  match f.read with
  | .fail => none
  | .ok ts =>
      match processTables f.name ts with
      | .error _ => none
      | .ok rs => some (fileRecord f.name rs)

/-- The batch loop: `all_data` accumulated over the files in order. -/
def mainLoop : List FileInput → List JsonObj
  | [] => []
  | f :: fs =>
      match processFile f with
      | none => mainLoop fs
      | some r => r :: mainLoop fs

/-- Attempt `i` of a session is a parseable gateway response that the
Financial Validator judges Invalid. -/
def attemptInvalid (resp : Nat → GatewayResp) (i : Nat) : Prop :=
  ∃ d e, resp i = .ok d ∧ validate_financial_logic d = .ok (some e)

/-! ## Helper lemmas -/

theorem leadsWith_append (xs t : List Char) : leadsWith xs (xs ++ t) = true := by
  induction xs with
  | nil => rfl
  | cons c cs ih => simp [leadsWith, ih]

theorem containsSeq_self_append (n t : List Char) : containsSeq n (n ++ t) = true := by
  cases n with
  | nil =>
      induction t with
      | nil => rfl
      | cons c cs ih => simp [containsSeq, leadsWith]
  | cons c cs =>
      have h := leadsWith_append (c :: cs) t
      simp only [List.cons_append] at h
      simp [containsSeq, h]

theorem containsSeq_cons (n : List Char) (c : Char) (hay : List Char)
    (h : containsSeq n hay = true) : containsSeq n (c :: hay) = true := by
  simp [containsSeq, h]

theorem containsSeq_append_left (pre n hay : List Char)
    (h : containsSeq n hay = true) : containsSeq n (pre ++ hay) = true := by
  induction pre with
  | nil => exact h
  | cons c cs ih => exact containsSeq_cons _ _ _ ih

/-- A string built around `s` contains `s` as a substring. -/
theorem strContainsSub_embed (a s b : String) :
    strContainsSub (a ++ s ++ b) s = true := by
  have h := containsSeq_append_left a.data s.data (s.data ++ b.data)
    (containsSeq_self_append s.data b.data)
  simpa [strContainsSub, String.data_append, List.append_assoc] using h

/-- The coercion-error reason differs from every math-mismatch reason. -/
theorem mathErrorMsg_ne_coercion (a l n df : ℚ) :
    coercionErrorMsg ≠ mathErrorMsg a l n df := by
  intro h
  have h2 := congrArg String.data h
  simp [mathErrorMsg, coercionErrorMsg, String.data_append] at h2

theorem strContainsSub_of_data (hay needle : String) (pre post : List Char)
    (hd : hay.data = pre ++ (needle.data ++ post)) : strContainsSub hay needle = true := by
  unfold strContainsSub
  rw [hd]
  exact containsSeq_append_left pre _ _ (containsSeq_self_append _ _)

/-- Evaluation of the validator on a balance-sheet-typed record whose
three financial fields coerce. -/
theorem validate_eval_balance (d : JsonObj) (tt : String) (a l n : ℚ)
    (htt : tableTypeLower d = .ok tt)
    (hcond : (strContainsSub tt "balance sheet" ||
      strContainsSub tt "assets and liabilities") = true)
    (ha : getFin d "total_assets" = some a)
    (hl : getFin d "total_liabilities" = some l)
    (hn : getFin d "net_assets" = some n) :
    validate_financial_logic d =
      (if |a - (l + n)| > 1 then .ok (some (mathErrorMsg a l n (|a - (l + n)|)))
       else .ok none) := by
  simp [validate_financial_logic, htt, hcond, ha, hl, hn]

/-- The math-mismatch reason embeds all three operands and the computed
difference as substrings. -/
theorem mathErrorMsg_embeds (a l n df : ℚ) :
    strContainsSub (mathErrorMsg a l n df) (toString a) = true ∧
    strContainsSub (mathErrorMsg a l n df) (toString l) = true ∧
    strContainsSub (mathErrorMsg a l n df) (toString n) = true ∧
    strContainsSub (mathErrorMsg a l n df) (toString df) = true := by
  refine ⟨?_, ?_, ?_, ?_⟩
  · apply strContainsSub_of_data _ _ ("Math Error: Total Assets (").data
      ((") does not equal Liabilities (" ++ toString l ++ ") + Net Assets (" ++
        toString n ++ "). Difference is " ++ toString df ++ ".").data)
    simp [mathErrorMsg, String.data_append, List.append_assoc]
  · apply strContainsSub_of_data _ _
      (("Math Error: Total Assets (" ++ toString a ++ ") does not equal Liabilities (").data)
      ((") + Net Assets (" ++ toString n ++ "). Difference is " ++ toString df ++ ".").data)
    simp [mathErrorMsg, String.data_append, List.append_assoc]
  · apply strContainsSub_of_data _ _
      (("Math Error: Total Assets (" ++ toString a ++ ") does not equal Liabilities (" ++
        toString l ++ ") + Net Assets (").data)
      (("). Difference is " ++ toString df ++ ".").data)
    simp [mathErrorMsg, String.data_append, List.append_assoc]
  · apply strContainsSub_of_data _ _
      (("Math Error: Total Assets (" ++ toString a ++ ") does not equal Liabilities (" ++
        toString l ++ ") + Net Assets (" ++ toString n ++ "). Difference is ").data)
      (".").data
    simp [mathErrorMsg, String.data_append, List.append_assoc]

/-- C3: the claim says `validate_financial_logic` returns a
ValidationOutcome on every input mapping, including one whose
`table_type` field holds a non-string value, and never propagates an
unhandled exception.  The code violates this: on `{"table_type": null}`
line 28 calls `.lower()` on a non-string outside the `try` block and
raises an uncaught `AttributeError`. -/
theorem c3_nonstring_table_type_raises :
    validate_financial_logic [("table_type", JsonVal.null)] =
      .error .attributeError := rfl

/-- C4: a record whose `table_type` reads as a string (absent defaults
to `""`) whose lowercasing contains neither "balance sheet" nor
"assets and liabilities" as a substring is judged Valid, whatever its
other fields. -/
theorem c4_non_balance_sheet_always_valid (d : JsonObj) (tt : String)
    (htt : tableTypeLower d = .ok tt)
    (h1 : strContainsSub tt "balance sheet" = false)
    (h2 : strContainsSub tt "assets and liabilities" = false) :
    validate_financial_logic d = .ok none := by
  simp [validate_financial_logic, htt, h1, h2]

/-- C4 witness: `{"table_type": "Operations", "total_assets": "bogus"}`
is Valid. -/
theorem c4_witness :
    validate_financial_logic
      [("table_type", .str "Operations"), ("total_assets", .str "bogus")] =
      .ok none :=
  c4_non_balance_sheet_always_valid _ "operations" rfl rfl rfl

/-- C5: on a balance-sheet-typed record whose three financial fields
coerce to `a`, `l`, `n`, the validator accepts iff
`|a - (l + n)| ≤ 1.0`; on violation it returns Invalid with the
math-mismatch reason, which embeds the three coerced operands and the
computed absolute difference. -/
theorem c5_balance_sheet_math_check (d : JsonObj) (tt : String) (a l n : ℚ)
    (htt : tableTypeLower d = .ok tt)
    (hmatch : strContainsSub tt "balance sheet" = true ∨
      strContainsSub tt "assets and liabilities" = true)
    (ha : getFin d "total_assets" = some a)
    (hl : getFin d "total_liabilities" = some l)
    (hn : getFin d "net_assets" = some n) :
    (validate_financial_logic d = .ok none ↔ |a - (l + n)| ≤ 1) ∧
    (1 < |a - (l + n)| →
      validate_financial_logic d = .ok (some (mathErrorMsg a l n (|a - (l + n)|))) ∧
      strContainsSub (mathErrorMsg a l n (|a - (l + n)|)) (toString a) = true ∧
      strContainsSub (mathErrorMsg a l n (|a - (l + n)|)) (toString l) = true ∧
      strContainsSub (mathErrorMsg a l n (|a - (l + n)|)) (toString n) = true ∧
      strContainsSub (mathErrorMsg a l n (|a - (l + n)|)) (toString (|a - (l + n)|)) = true) := by
  have hcond : (strContainsSub tt "balance sheet" ||
      strContainsSub tt "assets and liabilities") = true := by
    rcases hmatch with h | h <;> simp [h]
  have hev := validate_eval_balance d tt a l n htt hcond ha hl hn
  refine ⟨?_, ?_⟩
  · rw [hev]
    by_cases hgt : |a - (l + n)| > 1
    · rw [if_pos hgt]
      simp [not_le.mpr hgt]
    · rw [if_neg hgt]
      simp [not_lt.mp hgt]
  · intro hgt
    refine ⟨by rw [hev, if_pos hgt], ?_⟩
    exact mathErrorMsg_embeds a l n _

/-- C5 witness: assets 1,000 against 600 + 300 is rejected with the
math-mismatch reason carrying the operands and the difference. -/
theorem c5_witness :
    (1 : ℚ) < |1000 - ((600 : ℚ) + 300)| ∧
    validate_financial_logic
      [("table_type", .str "Balance Sheet"), ("total_assets", .str "1,000"),
       ("total_liabilities", .str "600"), ("net_assets", .str "300")] =
      .ok (some (mathErrorMsg 1000 600 300 (|1000 - ((600 : ℚ) + 300)|))) := by
  have h := c5_balance_sheet_math_check
    [("table_type", .str "Balance Sheet"), ("total_assets", .str "1,000"),
     ("total_liabilities", .str "600"), ("net_assets", .str "300")]
    "balance sheet" 1000 600 300 rfl (Or.inl rfl)
    (by simp [getFin, getField, coerceFloat, stripCommas, pyFloatOfString,
      parseUnsignedDec, takeDigits, isDigitChar, digitsVal, digitVal])
    (by simp [getFin, getField, coerceFloat, stripCommas, pyFloatOfString,
      parseUnsignedDec, takeDigits, isDigitChar, digitsVal, digitVal])
    (by simp [getFin, getField, coerceFloat, stripCommas, pyFloatOfString,
      parseUnsignedDec, takeDigits, isDigitChar, digitsVal, digitVal])
  exact ⟨by norm_num, (h.2 (by norm_num)).1⟩

/-- C6: on a balance-sheet-typed record, each financial field defaults
to zero when absent (all three absent is Valid: 0 = 0 + 0), present
string values are parsed after comma stripping, any coercion failure
yields Invalid with the coercion reason — distinct from every
math-mismatch reason — and the validator does not raise. -/
theorem c6_defaults_and_coercion (d : JsonObj) (tt : String)
    (htt : tableTypeLower d = .ok tt)
    (hmatch : strContainsSub tt "balance sheet" = true ∨
      strContainsSub tt "assets and liabilities" = true) :
    (∀ key, getField d key = none → getFin d key = some 0) ∧
    (∀ key s, getField d key = some (JsonVal.str s) →
      getFin d key = pyFloatOfString (stripCommas s)) ∧
    (getField d "total_assets" = none → getField d "total_liabilities" = none →
      getField d "net_assets" = none → validate_financial_logic d = .ok none) ∧
    ((getFin d "total_assets" = none ∨ getFin d "total_liabilities" = none ∨
      getFin d "net_assets" = none) →
      validate_financial_logic d = .ok (some coercionErrorMsg)) ∧
    (∀ a l n df, coercionErrorMsg ≠ mathErrorMsg a l n df) ∧
    (∀ e, validate_financial_logic d ≠ .error e) := by
  have hcond : (strContainsSub tt "balance sheet" ||
      strContainsSub tt "assets and liabilities") = true := by
    rcases hmatch with h | h <;> simp [h]
  refine ⟨?_, ?_, ?_, ?_, fun a l n df => mathErrorMsg_ne_coercion a l n df, ?_⟩
  · intro key hk
    simp [getFin, hk, coerceFloat]
  · intro key s hk
    simp [getFin, hk, coerceFloat]
  · intro h1 h2 h3
    have hev := validate_eval_balance d tt 0 0 0 htt hcond
      (by simp [getFin, h1, coerceFloat]) (by simp [getFin, h2, coerceFloat])
      (by simp [getFin, h3, coerceFloat])
    rw [hev]
    norm_num
  · intro hnone
    rcases hA : getFin d "total_assets" with _ | a
    · simp [validate_financial_logic, htt, hcond, hA]
    · rcases hB : getFin d "total_liabilities" with _ | b
      · simp [validate_financial_logic, htt, hcond, hA, hB]
      · rcases hC : getFin d "net_assets" with _ | c
        · simp [validate_financial_logic, htt, hcond, hA, hB, hC]
        · rcases hnone with h | h | h <;> simp_all
  · intro e
    rcases hA : getFin d "total_assets" with _ | a
    · simp [validate_financial_logic, htt, hcond, hA]
    · rcases hB : getFin d "total_liabilities" with _ | b
      · simp [validate_financial_logic, htt, hcond, hA, hB]
      · rcases hC : getFin d "net_assets" with _ | c
        · simp [validate_financial_logic, htt, hcond, hA, hB, hC]
        · have hev := validate_eval_balance d tt a b c htt hcond hA hB hC
          rw [hev]
          split <;> simp

/-- C6 witness: all fields absent default to zero and pass; an
unparseable field yields the coercion reason. -/
theorem c6_witness :
    getFin [("table_type", .str "balance sheet")] "total_assets" = some 0 ∧
    validate_financial_logic [("table_type", .str "balance sheet")] = .ok none ∧
    validate_financial_logic
      [("table_type", .str "balance sheet"), ("total_assets", .str "n/a")] =
      .ok (some coercionErrorMsg) := by
  have h := c6_defaults_and_coercion [("table_type", .str "balance sheet")]
    "balance sheet" rfl (Or.inl rfl)
  have h2 := c6_defaults_and_coercion
    [("table_type", .str "balance sheet"), ("total_assets", .str "n/a")]
    "balance sheet" rfl (Or.inl rfl)
  refine ⟨h.1 "total_assets" rfl, h.2.2.1 rfl rfl rfl, ?_⟩
  exact h2.2.2.2.1 (Or.inl (by simp [getFin, getField, coerceFloat, stripCommas,
    pyFloatOfString, parseUnsignedDec, takeDigits, isDigitChar]))

/-- C8: the validator is deterministic and a pure function of its
input record: a second call on the same record yields the same outcome,
and the outcome depends only on the record's four inspected fields
(no hidden state). -/
theorem c8_validator_pure (d : JsonObj) :
    validate_financial_logic d = validate_financial_logic d ∧
    ∀ d' : JsonObj,
      getField d' "table_type" = getField d "table_type" →
      getField d' "total_assets" = getField d "total_assets" →
      getField d' "total_liabilities" = getField d "total_liabilities" →
      getField d' "net_assets" = getField d "net_assets" →
      validate_financial_logic d' = validate_financial_logic d := by
  refine ⟨rfl, ?_⟩
  intro d' h1 h2 h3 h4
  simp [validate_financial_logic, tableTypeLower, getFin, h1, h2, h3, h4]

/-- C8 witness: two records agreeing on the inspected fields get the
same outcome. -/
theorem c8_witness :
    validate_financial_logic
        [("table_type", .str "Operations"), ("comment", .str "x")] =
      validate_financial_logic [("table_type", .str "Operations")] :=
  (c8_validator_pure [("table_type", .str "Operations")]).2
    [("table_type", .str "Operations"), ("comment", .str "x")] rfl rfl rfl rfl

/-! ## Loop lemmas: one retry step, and the trace of gateway calls -/

/-- One loop iteration on a parseable-but-Invalid response: the history
grows by exactly the assistant turn and the audit-feedback turn, and the
loop re-enters with the next attempt index. -/
theorem loopGo_step_invalid (resp : Nat → GatewayResp) (fuel attempt : Nat)
    (msgs : List Message) (lastData : Option JsonObj)
    (trace : List (List Message)) (d : JsonObj) (e : String)
    (hr : resp attempt = .ok d)
    (hv : validate_financial_logic d = .ok (some e)) :
    loopGo resp (fuel + 1) attempt msgs lastData trace =
      loopGo resp fuel (attempt + 1)
        (msgs ++ [⟨"assistant", jsonDumps d⟩, ⟨"user", feedbackMsg e⟩])
        (some d) (trace ++ [msgs]) := by
  simp [loopGo, hr, hv]

/-- The already-recorded trace is never shrunk by the loop. -/
theorem loopGo_trace_pre (resp : Nat → GatewayResp) :
    ∀ (fuel attempt : Nat) (msgs : List Message) (lastData : Option JsonObj)
      (trace : List (List Message)),
      trace <+: (loopGo resp fuel attempt msgs lastData trace).2 := by
  intro fuel
  induction fuel with
  | zero =>
      intro attempt msgs lastData trace
      simp [loopGo]
  | succ f ih =>
      intro attempt msgs lastData trace
      cases hr : resp attempt with
      | fail =>
          simp [loopGo, hr]
      | ok d =>
          cases hv : validate_financial_logic d with
          | error e =>
              simp [loopGo, hr, hv]
          | ok o =>
              cases o with
              | none =>
                  simp [loopGo, hr, hv]
              | some e =>
                  rw [loopGo_step_invalid resp f attempt msgs lastData trace d e hr hv]
                  exact (List.prefix_append trace [msgs]).trans (ih ..)

/-- When at least one iteration remains, the history passed to the
current gateway call is recorded at the current trace position. -/
theorem loopGo_trace_call (resp : Nat → GatewayResp) (fuel attempt : Nat)
    (msgs : List Message) (lastData : Option JsonObj)
    (trace : List (List Message)) :
    (loopGo resp (fuel + 1) attempt msgs lastData trace).2[trace.length]? =
      some msgs := by
  have hpre : (trace ++ [msgs]) <+:
      (loopGo resp (fuel + 1) attempt msgs lastData trace).2 := by
    cases hr : resp attempt with
    | fail => simp [loopGo, hr]
    | ok d =>
        cases hv : validate_financial_logic d with
        | error e => simp [loopGo, hr, hv]
        | ok o =>
            cases o with
            | none => simp [loopGo, hr, hv]
            | some e =>
                rw [loopGo_step_invalid resp fuel attempt msgs lastData trace d e hr hv]
                exact loopGo_trace_pre resp ..
  obtain ⟨t, ht⟩ := hpre
  rw [← ht]
  rw [List.getElem?_append_left (by simp)]
  exact List.getElem?_concat_length trace msgs

/-- A session whose first `k` attempts are Invalid and whose attempt `k`
(0-based, `k < 3`) is parseable and Valid returns the stamped record. -/
theorem loopGo_accepted_run (resp : Nat → GatewayResp) (seed : List Message)
    (k : Nat) (hk : k < 3) (hinv : ∀ i, i < k → attemptInvalid resp i)
    (d : JsonObj) (hr : resp k = .ok d)
    (hv : validate_financial_logic d = .ok none) :
    (loopGo resp 3 0 seed none []).1 = .ok (acceptedRecord d k) := by
  interval_cases k
  · simp [loopGo, hr, hv]
  · obtain ⟨d0, e0, hr0, hv0⟩ := hinv 0 (by norm_num)
    simp [loopGo, hr0, hv0, hr, hv]
  · obtain ⟨d0, e0, hr0, hv0⟩ := hinv 0 (by norm_num)
    obtain ⟨d1, e1, hr1, hv1⟩ := hinv 1 (by norm_num)
    simp [loopGo, hr0, hv0, hr1, hv1, hr, hv]

/-- A session whose three attempts are all parseable and Invalid ends
after exactly three gateway calls with the failure record built from the
third (last) attempted payload. -/
theorem loopGo_exhausted_run (resp : Nat → GatewayResp) (seed : List Message)
    (hinv : ∀ i, i < 3 → attemptInvalid resp i) :
    ∃ d2, resp 2 = .ok d2 ∧
      (loopGo resp 3 0 seed none []).1 = .ok (failureRecord d2) ∧
      (loopGo resp 3 0 seed none []).2.length = 3 := by
  obtain ⟨d0, e0, hr0, hv0⟩ := hinv 0 (by norm_num)
  obtain ⟨d1, e1, hr1, hv1⟩ := hinv 1 (by norm_num)
  obtain ⟨d2, e2, hr2, hv2⟩ := hinv 2 (by norm_num)
  refine ⟨d2, hr2, ?_, ?_⟩
  · simp [loopGo, hr0, hv0, hr1, hv1, hr2, hv2, exhaustedReturn]
  · simp [loopGo, hr0, hv0, hr1, hv1, hr2, hv2]

/-! ## Dict-update lemmas -/

theorem getField_setKey_same (d : JsonObj) (key : String) (v : JsonVal) :
    getField (setKey d key v) key = some v := by
  induction d with
  | nil => simp [setKey, getField]
  | cons p rest ih =>
      obtain ⟨k, w⟩ := p
      by_cases hk : k = key
      · simp [setKey, hk, getField]
      · simp [setKey, hk, getField, ih]

theorem getField_setKey_other (d : JsonObj) (key other : String) (v : JsonVal)
    (h : other ≠ key) : getField (setKey d key v) other = getField d other := by
  induction d with
  | nil => simp [setKey, getField, Ne.symm h]
  | cons p rest ih =>
      obtain ⟨k, w⟩ := p
      by_cases hk : k = key
      · subst hk
        simp [setKey, getField, Ne.symm h]
      · by_cases hko : k = other <;> simp [setKey, hk, getField, hko, ih, h]

theorem getField_append_none (d l2 : JsonObj) (key : String)
    (h : getField d key = none) : getField (d ++ l2) key = getField l2 key := by
  induction d with
  | nil => simp
  | cons p rest ih =>
      obtain ⟨k, w⟩ := p
      by_cases hk : k = key
      · simp [getField, hk] at h
      · simp [getField, hk] at h ⊢
        exact ih h

theorem setKey_fresh (d : JsonObj) (key : String) (v : JsonVal)
    (h : getField d key = none) : setKey d key v = d ++ [(key, v)] := by
  induction d with
  | nil => simp [setKey]
  | cons p rest ih =>
      obtain ⟨k, w⟩ := p
      by_cases hk : k = key
      · simp [getField, hk] at h
      · simp [getField, hk] at h
        simp [setKey, hk, ih h]

/-- C1: when every gateway response of a session parses but is judged
Invalid, the session performs exactly `MAX_RETRIES` (3) attempts and
returns a failure record carrying the error tag and the last attempted
(unvalidated) record; on an Accepted run after `k` Invalid attempts,
the result is the payload stamped with `attempts_needed = k + 1`
(the 1-based index of the first Valid attempt), which never exceeds 3. -/
theorem c1_retry_bound (tableHtml filename : String) (resp : Nat → GatewayResp) :
    ((∀ i, i < MAX_RETRIES → attemptInvalid resp i) →
      ∃ dLast, resp 2 = .ok dLast ∧
        process_table_agentic_loop tableHtml filename resp =
          .ok (failureRecord dLast) ∧
        getField (failureRecord dLast) "error" =
          some (.str "Validation failed after max retries") ∧
        getField (failureRecord dLast) "last_attempt" = some (.obj dLast) ∧
        (gatewayHistories tableHtml filename resp).length = MAX_RETRIES) ∧
    (∀ k, k < MAX_RETRIES → (∀ i, i < k → attemptInvalid resp i) →
      ∀ d, resp k = .ok d → validate_financial_logic d = .ok none →
        process_table_agentic_loop tableHtml filename resp =
          .ok (acceptedRecord d k) ∧
        getField (acceptedRecord d k) "attempts_needed" =
          some (.num ((k : ℚ) + 1)) ∧
        k + 1 ≤ MAX_RETRIES) := by
  constructor
  · intro hinv
    obtain ⟨d2, hr2, hres, hlen⟩ :=
      loopGo_exhausted_run resp (initMessages tableHtml filename) hinv
    exact ⟨d2, hr2, hres, rfl, rfl, hlen⟩
  · intro k hk hinv d hr hv
    refine ⟨loopGo_accepted_run resp (initMessages tableHtml filename) k hk hinv d hr hv,
      getField_setKey_same .., by omega⟩

/-- C1 witness: a session whose gateway always returns a balance-sheet
payload with an unparseable `total_assets` exhausts all 3 attempts and
returns the failure record built from the last attempt. -/
theorem c1_witness :
    process_table_agentic_loop "<table/>" "doc.txt"
        (fun _ => .ok [("table_type", .str "balance sheet"),
                       ("total_assets", .str "garbage")]) =
      .ok (failureRecord [("table_type", .str "balance sheet"),
                          ("total_assets", .str "garbage")]) ∧
    (gatewayHistories "<table/>" "doc.txt"
        (fun _ => .ok [("table_type", .str "balance sheet"),
                       ("total_assets", .str "garbage")])).length = MAX_RETRIES := by
  have h := (c1_retry_bound "<table/>" "doc.txt"
      (fun _ => .ok [("table_type", .str "balance sheet"),
                     ("total_assets", .str "garbage")])).1
    (fun i hi => ⟨[("table_type", .str "balance sheet"),
                   ("total_assets", .str "garbage")], coercionErrorMsg, rfl, rfl⟩)
  obtain ⟨d2, hr2, hres, _, _, hlen⟩ := h
  have hd2 : [("table_type", JsonVal.str "balance sheet"),
      ("total_assets", JsonVal.str "garbage")] = d2 := by
    simpa [GatewayResp.ok.injEq] using hr2
  rw [← hd2] at hres
  exact ⟨hres, hlen⟩

/-- C2: the claim says a gateway fault makes the session end immediately
with a returned failure record and processing continue with the next
table.  The code ends the attempt loop immediately (one gateway call,
no retry), but on a fault at attempt 1 `extracted_data` was never
bound, so line 117 raises `NameError` instead of returning a failure
record; the per-file `except` in `main` then catches it and skips the
whole file, so following tables of the same file are lost (third
conjunct: a file whose second table faults yields no FileRecord at
all, despite a successfully processed first table). -/
theorem c2_gateway_fault_first_attempt_raises :
    process_table_agentic_loop "<table/>" "doc.txt" (fun _ => .fail) =
      .error .nameError ∧
    (gatewayHistories "<table/>" "doc.txt" (fun _ => .fail)).length = 1 ∧
    processFile ⟨"doc.txt",
      .ok [("t1", fun _ => .ok [("table_type", .str "Operations")]),
           ("t2", fun _ => .fail)]⟩ = none :=
  ⟨rfl, rfl, rfl⟩

/-- C7: the ConversationHistory starts as the two seed turns, each
failed validation attempt appends exactly the assistant turn and the
audit-feedback turn (never shrinking), and after `k` failed attempts the
history passed to the next gateway call has `2 + 2k` turns. -/
theorem c7_history_growth (tableHtml filename : String) (resp : Nat → GatewayResp)
    (k : Nat) (hk : k < MAX_RETRIES) (hinv : ∀ i, i < k → attemptInvalid resp i) :
    (initMessages tableHtml filename).length = 2 ∧
    (gatewayHistories tableHtml filename resp)[0]? =
      some (initMessages tableHtml filename) ∧
    (∃ hist, (gatewayHistories tableHtml filename resp)[k]? = some hist ∧
      hist.length = 2 + 2 * k) ∧
    (∀ i, i < k → ∃ h1 h2,
      (gatewayHistories tableHtml filename resp)[i]? = some h1 ∧
      (gatewayHistories tableHtml filename resp)[i + 1]? = some h2 ∧
      h1 <+: h2 ∧ h2.length = h1.length + 2) := by
  have hk3 : k < 3 := hk
  have hG : gatewayHistories tableHtml filename resp =
      (loopGo resp (2 + 1) 0 (initMessages tableHtml filename) none []).2 := rfl
  have h0 : (gatewayHistories tableHtml filename resp)[0]? =
      some (initMessages tableHtml filename) := by
    rw [hG]
    simpa using loopGo_trace_call resp 2 0 (initMessages tableHtml filename) none []
  interval_cases k
  · exact ⟨rfl, h0, ⟨initMessages tableHtml filename, h0, rfl⟩,
      fun i hi => absurd hi (Nat.not_lt_zero i)⟩
  · obtain ⟨d0, e0, hr0, hv0⟩ := hinv 0 (by norm_num)
    have hstep0 := loopGo_step_invalid resp 2 0 (initMessages tableHtml filename)
      none [] d0 e0 hr0 hv0
    simp only [List.nil_append, Nat.zero_add] at hstep0
    have h1 : (gatewayHistories tableHtml filename resp)[1]? =
        some (initMessages tableHtml filename ++
          [⟨"assistant", jsonDumps d0⟩, ⟨"user", feedbackMsg e0⟩]) := by
      rw [hG, hstep0]
      simpa using loopGo_trace_call resp 1 1
        (initMessages tableHtml filename ++
          [⟨"assistant", jsonDumps d0⟩, ⟨"user", feedbackMsg e0⟩])
        (some d0) [initMessages tableHtml filename]
    refine ⟨rfl, h0, ⟨_, h1, by simp [initMessages]⟩, ?_⟩
    intro i hi
    have hi0 : i = 0 := by omega
    subst hi0
    exact ⟨_, _, h0, h1, List.prefix_append .., by simp⟩
  · obtain ⟨d0, e0, hr0, hv0⟩ := hinv 0 (by norm_num)
    obtain ⟨d1, e1, hr1, hv1⟩ := hinv 1 (by norm_num)
    have hstep0 := loopGo_step_invalid resp 2 0 (initMessages tableHtml filename)
      none [] d0 e0 hr0 hv0
    simp only [List.nil_append, Nat.zero_add] at hstep0
    have hstep1 := loopGo_step_invalid resp 1 1
      (initMessages tableHtml filename ++
        [⟨"assistant", jsonDumps d0⟩, ⟨"user", feedbackMsg e0⟩])
      (some d0) [initMessages tableHtml filename] d1 e1 hr1 hv1
    have h1 : (gatewayHistories tableHtml filename resp)[1]? =
        some (initMessages tableHtml filename ++
          [⟨"assistant", jsonDumps d0⟩, ⟨"user", feedbackMsg e0⟩]) := by
      rw [hG, hstep0]
      simpa using loopGo_trace_call resp 1 1
        (initMessages tableHtml filename ++
          [⟨"assistant", jsonDumps d0⟩, ⟨"user", feedbackMsg e0⟩])
        (some d0) [initMessages tableHtml filename]
    have h2 : (gatewayHistories tableHtml filename resp)[2]? =
        some (initMessages tableHtml filename ++
          [⟨"assistant", jsonDumps d0⟩, ⟨"user", feedbackMsg e0⟩] ++
          [⟨"assistant", jsonDumps d1⟩, ⟨"user", feedbackMsg e1⟩]) := by
      rw [hG, hstep0, hstep1]
      simpa using loopGo_trace_call resp 0 2
        (initMessages tableHtml filename ++
          [⟨"assistant", jsonDumps d0⟩, ⟨"user", feedbackMsg e0⟩] ++
          [⟨"assistant", jsonDumps d1⟩, ⟨"user", feedbackMsg e1⟩])
        (some d1)
        [initMessages tableHtml filename,
         initMessages tableHtml filename ++
          [⟨"assistant", jsonDumps d0⟩, ⟨"user", feedbackMsg e0⟩]]
    refine ⟨rfl, h0, ⟨_, h2, by simp [initMessages]⟩, ?_⟩
    intro i hi
    have hi01 : i = 0 ∨ i = 1 := by omega
    rcases hi01 with rfl | rfl
    · exact ⟨_, _, h0, h1, List.prefix_append .., by simp⟩
    · exact ⟨_, _, h1, h2, List.prefix_append .., by simp⟩

/-- C7 witness: one failed attempt, then the history before the second
gateway call has `2 + 2·1 = 4` turns. -/
theorem c7_witness :
    (initMessages "<table/>" "doc.txt").length = 2 ∧
    (gatewayHistories "<table/>" "doc.txt"
        (fun _ => .ok [("table_type", .str "balance sheet"),
                       ("total_assets", .str "garbage")]))[0]? =
      some (initMessages "<table/>" "doc.txt") ∧
    (∃ hist, (gatewayHistories "<table/>" "doc.txt"
        (fun _ => .ok [("table_type", .str "balance sheet"),
                       ("total_assets", .str "garbage")]))[1]? = some hist ∧
      hist.length = 2 + 2 * 1) ∧
    (∀ i, i < 1 → ∃ h1 h2,
      (gatewayHistories "<table/>" "doc.txt"
        (fun _ => .ok [("table_type", .str "balance sheet"),
                       ("total_assets", .str "garbage")]))[i]? = some h1 ∧
      (gatewayHistories "<table/>" "doc.txt"
        (fun _ => .ok [("table_type", .str "balance sheet"),
                       ("total_assets", .str "garbage")]))[i + 1]? = some h2 ∧
      h1 <+: h2 ∧ h2.length = h1.length + 2) :=
  c7_history_growth "<table/>" "doc.txt"
    (fun _ => .ok [("table_type", .str "balance sheet"),
                   ("total_assets", .str "garbage")])
    1 (by norm_num [MAX_RETRIES])
    (fun i hi => ⟨[("table_type", .str "balance sheet"),
                   ("total_assets", .str "garbage")], coercionErrorMsg, rfl, rfl⟩)

/-- C10 counterexample: the claim says the accepted record is the
gateway payload with two fields *added* and every gateway-produced
field left unchanged.  A payload that itself contains a
`validation_status` field has that field *overwritten* to "passed". -/
theorem c10_counterexample :
    process_table_agentic_loop "<table/>" "doc.txt"
        (fun _ => .ok [("table_type", .str "Operations"),
                       ("validation_status", .str "pre")]) =
      .ok [("table_type", .str "Operations"),
           ("validation_status", .str "passed"),
           ("attempts_needed", .num 1)] ∧
    getField [("table_type", .str "Operations"), ("validation_status", .str "pre")]
        "validation_status" = some (.str "pre") ∧
    getField [("table_type", .str "Operations"),
              ("validation_status", .str "passed"), ("attempts_needed", .num 1)]
        "validation_status" = some (.str "passed") ∧
    JsonVal.str "pre" ≠ JsonVal.str "passed" := by
  refine ⟨?_, rfl, rfl, by simp⟩
  simp [process_table_agentic_loop, processTableFull, MAX_RETRIES, loopGo,
    validate_financial_logic, tableTypeLower, getField, strLower, charLower,
    strContainsSub, containsSeq, leadsWith, acceptedRecord, setKey]

/-- C10 (amended): on an Accepted run the returned record is the
gateway payload with `validation_status = "passed"` and
`attempts_needed` set — added when absent, overwritten in place when
the payload already carried them — and every other payload field is
unchanged; when both stamp keys are fresh the record is exactly the
payload with the two fields appended. -/
theorem c10_accepted_frame (tableHtml filename : String) (resp : Nat → GatewayResp)
    (k : Nat) (hk : k < MAX_RETRIES) (hinv : ∀ i, i < k → attemptInvalid resp i)
    (d : JsonObj) (hr : resp k = .ok d)
    (hv : validate_financial_logic d = .ok none) :
    process_table_agentic_loop tableHtml filename resp = .ok (acceptedRecord d k) ∧
    getField (acceptedRecord d k) "validation_status" = some (.str "passed") ∧
    getField (acceptedRecord d k) "attempts_needed" = some (.num ((k : ℚ) + 1)) ∧
    (∀ key, key ≠ "validation_status" → key ≠ "attempts_needed" →
      getField (acceptedRecord d k) key = getField d key) ∧
    (getField d "validation_status" = none → getField d "attempts_needed" = none →
      acceptedRecord d k =
        d ++ [("validation_status", .str "passed"),
              ("attempts_needed", .num ((k : ℚ) + 1))]) := by
  refine ⟨loopGo_accepted_run resp (initMessages tableHtml filename) k hk hinv d hr hv,
    ?_, getField_setKey_same .., ?_, ?_⟩
  · rw [show acceptedRecord d k =
        setKey (setKey d "validation_status" (.str "passed"))
          "attempts_needed" (.num ((k : ℚ) + 1)) from rfl]
    rw [getField_setKey_other _ _ _ _ (by decide)]
    exact getField_setKey_same ..
  · intro key h1 h2
    rw [show acceptedRecord d k =
        setKey (setKey d "validation_status" (.str "passed"))
          "attempts_needed" (.num ((k : ℚ) + 1)) from rfl]
    rw [getField_setKey_other _ _ _ _ h2, getField_setKey_other _ _ _ _ h1]
  · intro hv1 hv2
    rw [show acceptedRecord d k =
        setKey (setKey d "validation_status" (.str "passed"))
          "attempts_needed" (.num ((k : ℚ) + 1)) from rfl]
    rw [setKey_fresh d "validation_status" _ hv1]
    rw [setKey_fresh _ "attempts_needed" _
      (by rw [getField_append_none _ _ _ hv2]; rfl)]
    simp

/-- C10 witness: a fresh payload is returned with exactly the two stamp
fields appended. -/
theorem c10_witness :
    process_table_agentic_loop "<table/>" "doc.txt"
        (fun _ => .ok [("table_type", .str "Operations")]) =
      .ok (acceptedRecord [("table_type", .str "Operations")] 0) ∧
    acceptedRecord [("table_type", .str "Operations")] 0 =
      [("table_type", .str "Operations")] ++
        [("validation_status", .str "passed"),
         ("attempts_needed", .num (((0 : Nat) : ℚ) + 1))] := by
  have h := c10_accepted_frame "<table/>" "doc.txt"
    (fun _ => .ok [("table_type", .str "Operations")])
    0 (by norm_num [MAX_RETRIES]) (fun i hi => absurd hi (Nat.not_lt_zero i))
    [("table_type", .str "Operations")] rfl rfl
  exact ⟨h.1, h.2.2.2.2 rfl rfl⟩

/-- Batch loop splits over list append. -/
theorem mainLoop_append (a b : List FileInput) :
    mainLoop (a ++ b) = mainLoop a ++ mainLoop b := by
  induction a with
  | nil => rfl
  | cons f fs ih => cases h : processFile f <;> simp [mainLoop, h, ih]

/-- Every file that processes successfully contributes one record. -/
theorem mainLoop_length_ok (l : List FileInput)
    (h : ∀ f ∈ l, ∃ r, processFile f = some r) :
    (mainLoop l).length = l.length := by
  induction l with
  | nil => rfl
  | cons f fs ih =>
      obtain ⟨r, hr⟩ := h f (List.mem_cons_self f fs)
      simp [mainLoop, hr, ih (fun g hg => h g (List.mem_cons_of_mem f hg))]

/-- C9: a batch in which one file fails to read still processes every
other file; the unreadable file is skipped and the remaining N−1 files
contribute their FileRecords, in order, to the single output list. -/
theorem c9_batch_resilience (pre post : List FileInput) (bad : FileInput)
    (hbad : bad.read = .fail)
    (hok : ∀ f ∈ pre ++ post, ∃ r, processFile f = some r) :
    mainLoop (pre ++ bad :: post) = mainLoop pre ++ mainLoop post ∧
    (mainLoop (pre ++ bad :: post)).length = (pre ++ bad :: post).length - 1 ∧
    (mainLoop (pre ++ bad :: post)).length = pre.length + post.length := by
  have hbadF : processFile bad = none := by simp [processFile, hbad]
  have h1 : mainLoop (pre ++ bad :: post) = mainLoop pre ++ mainLoop post := by
    rw [show bad :: post = [bad] ++ post from rfl, ← List.append_assoc,
      mainLoop_append, mainLoop_append]
    simp [mainLoop, hbadF]
  have hpre := mainLoop_length_ok pre (fun f hf => hok f (List.mem_append_left _ hf))
  have hpost := mainLoop_length_ok post (fun f hf => hok f (List.mem_append_right _ hf))
  refine ⟨h1, ?_, ?_⟩
  · rw [h1]
    simp [List.length_append, hpre, hpost]
  · rw [h1]
    simp [List.length_append, hpre, hpost]

/-- C9 witness: of three files, the middle one unreadable, the other
two produce the two output records. -/
theorem c9_witness :
    mainLoop [⟨"a.txt", .ok []⟩, ⟨"b.txt", .fail⟩,
        ⟨"c.txt", .ok [("<t/>",
          fun _ => .ok [("table_type", .str "Operations")])]⟩] =
      mainLoop [⟨"a.txt", .ok []⟩] ++
        mainLoop [⟨"c.txt", .ok [("<t/>",
          fun _ => .ok [("table_type", .str "Operations")])]⟩] ∧
    (mainLoop [⟨"a.txt", .ok []⟩, ⟨"b.txt", .fail⟩,
        ⟨"c.txt", .ok [("<t/>",
          fun _ => .ok [("table_type", .str "Operations")])]⟩]).length =
      ([⟨"a.txt", .ok []⟩, ⟨"b.txt", .fail⟩,
        ⟨"c.txt", .ok [("<t/>",
          fun _ => .ok [("table_type", .str "Operations")])]⟩] :
        List FileInput).length - 1 ∧
    (mainLoop [⟨"a.txt", .ok []⟩, ⟨"b.txt", .fail⟩,
        ⟨"c.txt", .ok [("<t/>",
          fun _ => .ok [("table_type", .str "Operations")])]⟩]).length =
      ([⟨"a.txt", .ok []⟩] : List FileInput).length +
      ([⟨"c.txt", .ok [("<t/>",
          fun _ => .ok [("table_type", .str "Operations")])]⟩] :
        List FileInput).length := by
  have h := c9_batch_resilience [⟨"a.txt", .ok []⟩]
    [⟨"c.txt", .ok [("<t/>", fun _ => .ok [("table_type", .str "Operations")])]⟩]
    ⟨"b.txt", .fail⟩ rfl ?_
  · exact h
  · intro f hf
    simp only [List.mem_append, List.mem_singleton] at hf
    rcases hf with rfl | rfl
    · exact ⟨_, rfl⟩
    · exact ⟨_, rfl⟩
